import Mathlib

/-!
# Verification of the PersonaPlex API gateway core

A shallow embedding of `src/api_gateway.py`: the `APIKeyManager` credential
store with its sliding-window rate limiter, the WebSocket duplex relay
(`websocket_stream`), and the offline-inference job handler
(`offline_inference`).  Python dicts are modelled as association lists over
`String` keys, wall-clock timestamps (Python floats) as rationals, and the
handler's filesystem/process side effects as explicit event traces.
-/

set_option maxHeartbeats 1000000

/-- Association-list lookup, modelling Python `dict.get(k)`. -/
def getEntry {α : Type} : List (String × α) → String → Option α
  | [], _ => none
  | (k', v') :: rest, k => if k = k' then some v' else getEntry rest k

/-- Association-list update, modelling Python `dict[k] = v`: replaces the
binding in place when the key is present, otherwise appends a new one. -/
def setEntry {α : Type} : List (String × α) → String → α → List (String × α)
  | [], k, v => [(k, v)]
  | (k', v') :: rest, k, v =>
    if k = k' then (k, v) :: rest else (k', v') :: setEntry rest k v

theorem getEntry_setEntry_self {α : Type} (l : List (String × α)) (k : String) (v : α) :
    getEntry (setEntry l k v) k = some v := by
  induction l with
  | nil => simp [setEntry, getEntry]
  | cons p rest ih =>
    obtain ⟨k', v'⟩ := p
    by_cases h : k = k'
    · simp [setEntry, getEntry, h]
    · simp [setEntry, getEntry, h, ih]

theorem getEntry_setEntry_ne {α : Type} (l : List (String × α)) (k k₂ : String) (v : α)
    (h : k₂ ≠ k) : getEntry (setEntry l k v) k₂ = getEntry l k₂ := by
  induction l with
  | nil => simp [setEntry, getEntry, h]
  | cons p rest ih =>
    obtain ⟨k', v'⟩ := p
    by_cases hk : k = k'
    · subst hk
      simp [setEntry, getEntry, h]
    · by_cases hk2 : k₂ = k'
      · simp [setEntry, getEntry, hk, hk2]
      · simp [setEntry, getEntry, hk, hk2, ih]

/-- One stored credential record: the value of `self.keys[key_hash]` built by
`APIKeyManager.generate_key` (fields `name`, `description`, `created`,
`active`, `usage_count`). -/
structure KeyRecord where
  name : String
  description : String
  created : String
  active : Bool
  usage_count : Nat
deriving DecidableEq

/-- The mutable state of `APIKeyManager`: `self.keys` (digest → record) and
`self.rate_tracker` (digest → list of admission timestamps). -/
structure GatewayState where
  keys : List (String × KeyRecord)
  rate_tracker : List (String × List ℚ)
deriving DecidableEq

/-- `window = [t for t in window if now - t < 60]` in `validate_key`. -/
def pruneWindow (now : ℚ) (w : List ℚ) : List ℚ :=
  w.filter fun t => decide (now - t < 60)

/-- What one `validate_key` call returns and leaves behind: the returned
metadata (`None` on denial), the post-call state, and whether `_save_keys`
ran during the call. -/
structure ValidateResult where
  result : Option KeyRecord
  state : GatewayState
  saved : Bool
deriving DecidableEq

/-- `APIKeyManager.validate_key`, with the SHA-256 digest of the presented
secret passed in as `key_hash` (hashing is deterministic, so validation of a
plaintext is validation of its digest) and `RATE_LIMIT_RPM` as `n`.  Looks
up the record; if present and active it prunes the identity's window, denies
when the pruned window has reached capacity (leaving all state untouched),
and otherwise appends `now` to the window, increments `usage_count`, saves,
and returns the updated record. -/
def validate_key (n : Nat) (s : GatewayState) (key_hash : String) (now : ℚ) :
    ValidateResult :=
  match getEntry s.keys key_hash with
  | some entry =>
    if entry.active then
      let window := (getEntry s.rate_tracker key_hash).getD []
      let pruned := pruneWindow now window
      if n ≤ pruned.length then
        ⟨none, s, false⟩
      else
        let entry' : KeyRecord := { entry with usage_count := entry.usage_count + 1 }
        ⟨some entry',
          ⟨setEntry s.keys key_hash entry',
            setEntry s.rate_tracker key_hash (pruned ++ [now])⟩,
          true⟩
    else ⟨none, s, false⟩
  | none => ⟨none, s, false⟩

/-- `APIKeyManager.generate_key`, with the fresh random key's digest passed
in as `key_hash` and the creation timestamp as `created`: inserts a new
active record with `usage_count = 0` and saves. -/
def generate_key (s : GatewayState) (key_hash nm descr created : String) : GatewayState :=
  { keys := setEntry s.keys key_hash
      { name := nm, description := descr, created := created,
        active := true, usage_count := 0 },
    rate_tracker := s.rate_tracker }

/-- `APIKeyManager.revoke_key`: if the digest is present, sets
`active = False` and saves, returning `True`; otherwise returns `False`. -/
def revoke_key (s : GatewayState) (key_hash : String) : GatewayState × Bool :=
  match getEntry s.keys key_hash with
  | some e =>
    ({ keys := setEntry s.keys key_hash { e with active := false },
       rate_tracker := s.rate_tracker }, true)
  | none => (s, false)

/- Concrete sample data used by witnesses. -/

def recInactive : KeyRecord :=
  { name := "svc-a", description := "", created := "t0", active := false, usage_count := 3 }

def recActive : KeyRecord :=
  { name := "svc-b", description := "", created := "t0", active := true, usage_count := 5 }

def sInactive : GatewayState :=
  { keys := [(("k1"), recInactive)], rate_tracker := [] }

def sActive : GatewayState :=
  { keys := [(("k2"), recActive)], rate_tracker := [(("k2"), [(-100 : ℚ)])] }

/-- The calls a caller can drive `APIKeyManager` through: further
validations, revocations, and generations of new keys (the fresh random
key's digest made explicit, as in `generate_key`). -/
inductive GatewayOp where
  | validateOp (key_hash : String) (now : ℚ)
  | revokeOp (key_hash : String)
  | generateOp (key_hash nm descr created : String)
deriving DecidableEq

/-- Run one `GatewayOp` against the manager state. -/
def applyOp (n : Nat) (s : GatewayState) : GatewayOp → GatewayState
  | .validateOp h now => (validate_key n s h now).state
  | .revokeOp h => (revoke_key s h).1
  | .generateOp h nm d c => generate_key s h nm d c

/-- `op` does not issue a new credential whose digest collides with `h`
(collisions of the 256-bit digest are negligible by construction). -/
def avoidsDigest (h : String) : GatewayOp → Bool
  | .generateOp h' _ _ _ => decide (h' ≠ h)
  | _ => true

/-- The record stored for digest `h` exists and is revoked. -/
def InactiveAt (h : String) (s : GatewayState) : Prop :=
  ∃ e, getEntry s.keys h = some e ∧ e.active = false

/-- Every stored rate window holds at most `n` timestamps. -/
def WindowBound (n : Nat) (s : GatewayState) : Prop :=
  ∀ h w, getEntry s.rate_tracker h = some w → w.length ≤ n

theorem validate_key_denied_frame_aux (n : Nat) (s : GatewayState) (key_hash : String)
    (now : ℚ)
    (hda : getEntry s.keys key_hash = none ∨
      ∃ e, getEntry s.keys key_hash = some e ∧ e.active = false) :
    validate_key n s key_hash now = ⟨none, s, false⟩ := by
  rcases hda with h | ⟨e, he, hact⟩
  · simp [validate_key, h]
  · simp [validate_key, he, hact]

/-- A `validate_key` call either leaves the state untouched (any denial) or
was admitted on an active record with room in the pruned window, in which
case the post state is the two `setEntry` updates. -/
theorem validate_key_state_cases (n : Nat) (s : GatewayState) (kh : String) (now : ℚ) :
    (validate_key n s kh now).state = s ∨
    ∃ e, getEntry s.keys kh = some e ∧ e.active = true ∧
      (pruneWindow now ((getEntry s.rate_tracker kh).getD [])).length < n ∧
      (validate_key n s kh now).state =
        ⟨setEntry s.keys kh { e with usage_count := e.usage_count + 1 },
          setEntry s.rate_tracker kh
            (pruneWindow now ((getEntry s.rate_tracker kh).getD []) ++ [now])⟩ := by
  rcases hg : getEntry s.keys kh with _ | e
  · left
    simp [validate_key, hg]
  · by_cases hact : e.active
    · by_cases hrl : n ≤ (pruneWindow now ((getEntry s.rate_tracker kh).getD [])).length
      · left
        simp [validate_key, hg, hact, hrl]
      · right
        exact ⟨e, rfl, hact, by omega, by simp [validate_key, hg, hact, hrl]⟩
    · left
      simp [validate_key, hg, hact]

theorem inactive_applyOp (n : Nat) (h : String) (s : GatewayState) (op : GatewayOp)
    (hin : InactiveAt h s) (hop : avoidsDigest h op = true) :
    InactiveAt h (applyOp n s op) := by
  obtain ⟨e, he, hact⟩ := hin
  cases op with
  | validateOp h' now =>
    rcases validate_key_state_cases n s h' now with hs | ⟨e₂, he₂, hact₂, _, hs⟩
    · exact ⟨e, by simpa [applyOp, hs] using he, hact⟩
    · have hne : h ≠ h' := by
        intro hE
        subst hE
        rw [he] at he₂
        cases he₂
        rw [hact₂] at hact
        cases hact
      refine ⟨e, ?_, hact⟩
      simp only [applyOp, hs]
      simpa [getEntry_setEntry_ne _ _ _ _ hne] using he
  | revokeOp h' =>
    by_cases hh : h = h'
    · subst hh
      simp only [applyOp, revoke_key, he]
      exact ⟨{ e with active := false }, getEntry_setEntry_self .., rfl⟩
    · simp only [applyOp, revoke_key]
      rcases hg : getEntry s.keys h' with _ | e₂
      · exact ⟨e, he, hact⟩
      · exact ⟨e, by simpa [getEntry_setEntry_ne _ _ _ _ hh] using he, hact⟩
  | generateOp h' nm d c =>
    have hne : h' ≠ h := by simpa [avoidsDigest] using hop
    exact ⟨e, by simpa [applyOp, generate_key, getEntry_setEntry_ne _ _ _ _ (Ne.symm hne)]
      using he, hact⟩

theorem inactive_foldl (n : Nat) (h : String) (ops : List GatewayOp) (s : GatewayState)
    (hin : InactiveAt h s) (hops : ∀ op ∈ ops, avoidsDigest h op = true) :
    InactiveAt h (ops.foldl (applyOp n) s) := by
  induction ops generalizing s with
  | nil => exact hin
  | cons op rest ih =>
    exact ih _ (inactive_applyOp n h s op hin (hops op (List.mem_cons_self ..)))
      fun o ho => hops o (List.mem_cons_of_mem _ ho)

theorem windowBound_applyOp (n : Nat) (s : GatewayState) (op : GatewayOp)
    (hb : WindowBound n s) : WindowBound n (applyOp n s op) := by
  cases op with
  | validateOp h' now =>
    rcases validate_key_state_cases n s h' now with hs | ⟨e₂, _, _, hlen, hs⟩
    · simpa [applyOp, hs] using hb
    · intro h w hw
      simp only [applyOp, hs] at hw
      by_cases hh : h = h'
      · subst hh
        rw [getEntry_setEntry_self] at hw
        cases hw
        simpa using hlen
      · exact hb h w (by simpa [getEntry_setEntry_ne _ _ _ _ hh] using hw)
  | revokeOp h' =>
    simp only [applyOp, revoke_key]
    rcases getEntry s.keys h' with _ | e₂
    · exact hb
    · exact hb
  | generateOp h' nm d c =>
    exact hb

theorem windowBound_foldl (n : Nat) (ops : List GatewayOp) (s : GatewayState)
    (hb : WindowBound n s) : WindowBound n (ops.foldl (applyOp n) s) := by
  induction ops generalizing s with
  | nil => exact hb
  | cons op rest ih => exact ih _ (windowBound_applyOp n s op hb)

/-- C10: when the digest is absent or the record inactive, `validate_key`
returns `None` and performs no state change at all: same `keys`, same
`rate_tracker`, and no save. -/
theorem validate_key_denied_no_effect (n : Nat) (s : GatewayState) (key_hash : String)
    (now : ℚ)
    (hda : getEntry s.keys key_hash = none ∨
      ∃ e, getEntry s.keys key_hash = some e ∧ e.active = false) :
    validate_key n s key_hash now = ⟨none, s, false⟩ := by
  rcases hda with h | ⟨e, he, hact⟩
  · simp [validate_key, h]
  · simp [validate_key, he, hact]

theorem validate_key_denied_no_effect_witness :
    validate_key 60 sInactive ("k1") 0 = ⟨none, sInactive, false⟩ :=
  validate_key_denied_no_effect 60 sInactive ("k1") 0
    (Or.inr ⟨recInactive, rfl, rfl⟩)

/-- C1: one `validate_key` call is a single admission decision.  If the
record exists but is inactive, the call is denied with no window append, no
usage increment and no save; if the call is admitted (returns metadata), the
identity's stored window becomes exactly the pruned old window plus the one
new timestamp, `usage_count` grows by exactly one both in the returned
metadata and in the stored record, and the record set is saved. -/
theorem validate_key_single_admission (n : Nat) (s : GatewayState) (key_hash : String)
    (now : ℚ) (e : KeyRecord) (he : getEntry s.keys key_hash = some e) :
    (e.active = false → validate_key n s key_hash now = ⟨none, s, false⟩) ∧
    (∀ e', (validate_key n s key_hash now).result = some e' →
      e'.usage_count = e.usage_count + 1 ∧
      (validate_key n s key_hash now).saved = true ∧
      getEntry (validate_key n s key_hash now).state.keys key_hash = some e' ∧
      getEntry (validate_key n s key_hash now).state.rate_tracker key_hash =
        some (pruneWindow now ((getEntry s.rate_tracker key_hash).getD []) ++ [now])) := by
  constructor
  · intro hact
    simp [validate_key, he, hact]
  · intro e' hres
    by_cases hact : e.active
    · by_cases hrl : n ≤ (pruneWindow now ((getEntry s.rate_tracker key_hash).getD [])).length
      · exfalso
        simp [validate_key, he, hact, hrl] at hres
      · have hval : validate_key n s key_hash now =
            ⟨some { e with usage_count := e.usage_count + 1 },
              ⟨setEntry s.keys key_hash { e with usage_count := e.usage_count + 1 },
                setEntry s.rate_tracker key_hash
                  (pruneWindow now ((getEntry s.rate_tracker key_hash).getD []) ++ [now])⟩,
              true⟩ := by
          simp [validate_key, he, hact, hrl]
        rw [hval] at hres ⊢
        simp at hres
        subst hres
        refine ⟨rfl, rfl, ?_, ?_⟩
        · exact getEntry_setEntry_self ..
        · exact getEntry_setEntry_self ..
    · exfalso
      simp [validate_key, he, hact] at hres

/-- C7: a credential issued via `generate_key` validates successfully when
presented immediately afterwards (its digest is fresh, so no rate window
exists for it, and the configured capacity is positive); and once
`revoke_key` has been called on a stored credential, every later
`validate_key` presenting it — after any further operations, none of which
re-issues the same digest — returns `None`. -/
theorem issue_validate_revoke (n : Nat) (s : GatewayState)
    (key_hash nm descr created : String) (now : ℚ)
    (hn : 0 < n) (hfresh : getEntry s.rate_tracker key_hash = none) :
    ((validate_key n (generate_key s key_hash nm descr created) key_hash now).result.isSome
        = true) ∧
    (∀ s₂ : GatewayState, ∀ e : KeyRecord, getEntry s₂.keys key_hash = some e →
      ∀ ops : List GatewayOp, (∀ op ∈ ops, avoidsDigest key_hash op = true) →
      ∀ later : ℚ,
        (validate_key n (ops.foldl (applyOp n) (revoke_key s₂ key_hash).1)
            key_hash later).result = none) := by
  constructor
  · have hk := getEntry_setEntry_self s.keys key_hash
      { name := nm, description := descr, created := created,
        active := true, usage_count := 0 }
    have hn' : ¬ n ≤ 0 := by omega
    simp [validate_key, generate_key, hk, hfresh, pruneWindow, hn']
  · intro s₂ e he ops hops later
    have hrev : InactiveAt key_hash (revoke_key s₂ key_hash).1 := by
      simp only [revoke_key, he]
      exact ⟨{ e with active := false }, getEntry_setEntry_self .., rfl⟩
    obtain ⟨e₂, he₂, hact₂⟩ := inactive_foldl n key_hash ops _ hrev hops
    have hval := validate_key_denied_frame_aux n _ key_hash later (Or.inr ⟨e₂, he₂, hact₂⟩)
    simp [hval]

theorem issue_validate_revoke_witness :
    ((validate_key 60 (generate_key sInactive ("k9") ("svc-c") ("") ("t1"))
        ("k9") 7).result.isSome = true) ∧
    (∀ s₂ : GatewayState, ∀ e : KeyRecord, getEntry s₂.keys ("k9") = some e →
      ∀ ops : List GatewayOp, (∀ op ∈ ops, avoidsDigest ("k9") op = true) →
      ∀ later : ℚ,
        (validate_key 60 (ops.foldl (applyOp 60) (revoke_key s₂ ("k9")).1)
            ("k9") later).result = none) :=
  issue_validate_revoke 60 sInactive ("k9") ("svc-c") ("") ("t1") 7 (by omega) rfl

/-- The admission decisions of a sequence of `validate_key` calls presenting
one identity, one call per listed instant (`true` = admitted, i.e. metadata
returned; `false` = denied). -/
def runValidate (n : Nat) (s : GatewayState) (key_hash : String) : List ℚ → List Bool
  | [] => []
  | t :: ts =>
    (validate_key n s key_hash t).result.isSome ::
      runValidate n (validate_key n s key_hash t).state key_hash ts

theorem runValidate_zero (key_hash : String) (ts : List ℚ) :
    ∀ s : GatewayState, runValidate 0 s key_hash ts = List.replicate ts.length false := by
  induction ts with
  | nil => intro s; simp [runValidate]
  | cons t₁ rest ih =>
    intro s
    have hval : validate_key 0 s key_hash t₁ = ⟨none, s, false⟩ := by
      rcases hg : getEntry s.keys key_hash with _ | e
      · simp [validate_key, hg]
      · by_cases hact : e.active
        · simp [validate_key, hg, hact]
        · simp [validate_key, hg, hact]
    simp [runValidate, hval, ih, List.replicate_succ]

/-- Burst induction: on an active record whose current window `w` is wholly
fresh relative to every upcoming instant, the next calls are admitted until
`w` fills the capacity `n` and denied once it does. -/
theorem runValidate_fresh (n : Nat) (key_hash : String) (ts : List ℚ) :
    ∀ (s : GatewayState) (e : KeyRecord) (w : List ℚ),
    getEntry s.keys key_hash = some e → e.active = true →
    (getEntry s.rate_tracker key_hash).getD [] = w →
    (∀ t ∈ w, ∀ u ∈ ts, t ≤ u ∧ u - t < 60) →
    List.Pairwise (· ≤ ·) ts →
    (∀ u ∈ ts, ∀ v ∈ ts, v - u < 60) →
    runValidate n s key_hash ts =
      List.replicate (min ts.length (n - w.length)) true ++
      List.replicate (ts.length - (n - w.length)) false := by
  induction ts with
  | nil =>
    intro s e w he hact hwin hw hsort hspan
    simp [runValidate]
  | cons t₁ rest ih =>
    intro s e w he hact hwin hw hsort hspan
    have hfresh : pruneWindow t₁ w = w := by
      apply List.filter_eq_self.mpr
      intro a ha
      exact decide_eq_true (hw a ha t₁ (List.mem_cons_self ..)).2
    have hsort' : List.Pairwise (· ≤ ·) rest := (List.pairwise_cons.mp hsort).2
    have hspan' : ∀ u ∈ rest, ∀ v ∈ rest, v - u < 60 := fun u hu v hv =>
      hspan u (List.mem_cons_of_mem _ hu) v (List.mem_cons_of_mem _ hv)
    by_cases hcap : n ≤ w.length
    · have hval : validate_key n s key_hash t₁ = ⟨none, s, false⟩ := by
        simp [validate_key, he, hact, hwin, hfresh, hcap]
      have hw' : ∀ t ∈ w, ∀ u ∈ rest, t ≤ u ∧ u - t < 60 := fun t ht u hu =>
        hw t ht u (List.mem_cons_of_mem _ hu)
      have hrec := ih s e w he hact hwin hw' hsort' hspan'
      have h0 : n - w.length = 0 := by omega
      rw [h0] at hrec ⊢
      simp [runValidate, hval, hrec, List.replicate_succ]
    · have hval : validate_key n s key_hash t₁ =
          ⟨some { e with usage_count := e.usage_count + 1 },
            ⟨setEntry s.keys key_hash { e with usage_count := e.usage_count + 1 },
              setEntry s.rate_tracker key_hash (w ++ [t₁])⟩,
            true⟩ := by
        simp [validate_key, he, hact, hwin, hfresh, hcap]
      have he' : getEntry (setEntry s.keys key_hash
          { e with usage_count := e.usage_count + 1 }) key_hash =
          some { e with usage_count := e.usage_count + 1 } := getEntry_setEntry_self ..
      have hwin' : (getEntry (setEntry s.rate_tracker key_hash (w ++ [t₁]))
          key_hash).getD [] = w ++ [t₁] := by
        rw [getEntry_setEntry_self]
        rfl
      have hw' : ∀ t ∈ w ++ [t₁], ∀ u ∈ rest, t ≤ u ∧ u - t < 60 := by
        intro t ht u hu
        rcases List.mem_append.mp ht with hmem | hmem
        · exact hw t hmem u (List.mem_cons_of_mem _ hu)
        · have ht1 : t = t₁ := by simpa using hmem
          subst ht1
          refine ⟨(List.pairwise_cons.mp hsort).1 u hu, ?_⟩
          exact hspan t (List.mem_cons_self ..) u (List.mem_cons_of_mem _ hu)
      have hrec := ih ⟨setEntry s.keys key_hash { e with usage_count := e.usage_count + 1 },
          setEntry s.rate_tracker key_hash (w ++ [t₁])⟩
        { e with usage_count := e.usage_count + 1 } (w ++ [t₁]) he' hact hwin' hw'
        hsort' hspan'
      simp only [runValidate, hval, Option.isSome_some]
      rw [hrec]
      have hlen : (w ++ [t₁]).length = w.length + 1 := by simp
      rw [hlen]
      have e1 : min (t₁ :: rest).length (n - w.length) =
          min rest.length (n - (w.length + 1)) + 1 := by
        simp only [List.length_cons]
        omega
      have e2 : (t₁ :: rest).length - (n - w.length) =
          rest.length - (n - (w.length + 1)) := by
        simp only [List.length_cons]
        omega
      rw [e1, e2, List.replicate_succ]
      simp

/-- C2: on an active identity whose stored window has seen no admission for
at least 60 seconds, a burst of calls all lying within one 60-second span
and presented in time order is admitted exactly `min K n` times — the first
`n` calls succeed, the `(n+1)`-th and all later calls within the span are
denied — so the budget had been restored to the full capacity `n`. -/
theorem sliding_window_rate_limit (n : Nat) (s : GatewayState) (key_hash : String)
    (e : KeyRecord) (ts : List ℚ)
    (he : getEntry s.keys key_hash = some e) (hact : e.active = true)
    (hidle : ∀ t ∈ (getEntry s.rate_tracker key_hash).getD [], ∀ u ∈ ts, 60 ≤ u - t)
    (hsorted : List.Pairwise (· ≤ ·) ts)
    (hspan : ∀ u ∈ ts, ∀ v ∈ ts, v - u < 60) :
    runValidate n s key_hash ts =
      List.replicate (min ts.length n) true ++
      List.replicate (ts.length - n) false := by
  cases ts with
  | nil => simp [runValidate]
  | cons t₁ rest =>
    have hprune : pruneWindow t₁ ((getEntry s.rate_tracker key_hash).getD []) = [] := by
      apply List.filter_eq_nil_iff.mpr
      intro a ha
      have h60 := hidle a ha t₁ (List.mem_cons_self ..)
      simp only [decide_eq_true_eq]
      linarith
    by_cases hn : n = 0
    · subst hn
      simp [runValidate_zero]
    · have hval : validate_key n s key_hash t₁ =
          ⟨some { e with usage_count := e.usage_count + 1 },
            ⟨setEntry s.keys key_hash { e with usage_count := e.usage_count + 1 },
              setEntry s.rate_tracker key_hash [t₁]⟩,
            true⟩ := by
        have hle : ¬ n ≤ (pruneWindow t₁
            ((getEntry s.rate_tracker key_hash).getD [])).length := by
          rw [hprune]
          simpa using hn
        simp [validate_key, he, hact, hle, hprune, hn]
      have he' : getEntry (setEntry s.keys key_hash
          { e with usage_count := e.usage_count + 1 }) key_hash =
          some { e with usage_count := e.usage_count + 1 } := getEntry_setEntry_self ..
      have hwin' : (getEntry (setEntry s.rate_tracker key_hash [t₁]) key_hash).getD []
          = [t₁] := by
        rw [getEntry_setEntry_self]
        rfl
      have hw' : ∀ t ∈ [t₁], ∀ u ∈ rest, t ≤ u ∧ u - t < 60 := by
        intro t ht u hu
        have ht1 : t = t₁ := by simpa using ht
        subst ht1
        refine ⟨(List.pairwise_cons.mp hsorted).1 u hu, ?_⟩
        exact hspan t (List.mem_cons_self ..) u (List.mem_cons_of_mem _ hu)
      have hrec := runValidate_fresh n key_hash rest
        ⟨setEntry s.keys key_hash { e with usage_count := e.usage_count + 1 },
          setEntry s.rate_tracker key_hash [t₁]⟩
        { e with usage_count := e.usage_count + 1 } [t₁] he' hact hwin' hw'
        (List.pairwise_cons.mp hsorted).2
        (fun u hu v hv => hspan u (List.mem_cons_of_mem _ hu) v (List.mem_cons_of_mem _ hv))
      simp only [runValidate, hval, Option.isSome_some]
      rw [hrec]
      have e1 : min (t₁ :: rest).length n = min rest.length (n - 1) + 1 := by
        simp only [List.length_cons]
        omega
      have e2 : (t₁ :: rest).length - n = rest.length - (n - 1) := by
        simp only [List.length_cons]
        omega
      have hlen : ([t₁] : List ℚ).length = 1 := rfl
      rw [hlen] at *
      rw [e1, e2, List.replicate_succ]
      simp

theorem sliding_window_rate_limit_witness :
    runValidate 2 sActive ("k2") [0, 1, 2] =
      List.replicate (min ([0, 1, 2] : List ℚ).length 2) true ++
      List.replicate (([0, 1, 2] : List ℚ).length - 2) false :=
  sliding_window_rate_limit 2 sActive ("k2") recActive [0, 1, 2] rfl rfl
    (by norm_num [getEntry, sActive])
    (by norm_num)
    (by norm_num)

/-- `recActive` after one admitted validation. -/
def recActive6 : KeyRecord := { recActive with usage_count := 6 }

/-- C9: starting from a freshly constructed tracker (`rate_tracker = {}` in
`__init__`), after any sequence of operations, a `validate_key` call that
reaches the admission check (record present and active) leaves the checked
identity's stored window holding only timestamps within the trailing
60 seconds of the check instant. -/
theorem rate_window_fresh_after_check (n : Nat) (keys₀ : List (String × KeyRecord))
    (ops : List GatewayOp) (key_hash : String) (now : ℚ) (e : KeyRecord)
    (w : List ℚ) (t : ℚ)
    (he : getEntry (ops.foldl (applyOp n) ⟨keys₀, []⟩).keys key_hash = some e)
    (hact : e.active = true)
    (hw : getEntry ((validate_key n (ops.foldl (applyOp n) ⟨keys₀, []⟩)
        key_hash now).state).rate_tracker key_hash = some w)
    (ht : t ∈ w) :
    now - t < 60 := by
  set s := ops.foldl (applyOp n) ⟨keys₀, []⟩ with hs
  have hb : WindowBound n s :=
    windowBound_foldl n ops _ (by intro h w' hw'; simp [getEntry] at hw')
  by_cases hrl : n ≤ (pruneWindow now ((getEntry s.rate_tracker key_hash).getD [])).length
  · have hval : validate_key n s key_hash now = ⟨none, s, false⟩ := by
      simp [validate_key, he, hact, hrl]
    rw [hval] at hw
    have hwl : w.length ≤ n := hb key_hash w hw
    have hget : (getEntry s.rate_tracker key_hash).getD [] = w := by simp [hw]
    rw [hget] at hrl
    have hle : (pruneWindow now w).length ≤ w.length := by
      simp only [pruneWindow]
      exact List.length_filter_le _ w
    have heq : pruneWindow now w = w := by
      refine List.Sublist.eq_of_length ?_ (by omega)
      simp only [pruneWindow]
      exact List.filter_sublist w
    have hall := List.filter_eq_self.mp heq t ht
    exact of_decide_eq_true hall
  · have hval : (validate_key n s key_hash now).state =
        ⟨setEntry s.keys key_hash { e with usage_count := e.usage_count + 1 },
          setEntry s.rate_tracker key_hash
            (pruneWindow now ((getEntry s.rate_tracker key_hash).getD []) ++ [now])⟩ := by
      simp [validate_key, he, hact, hrl]
    rw [hval] at hw
    rw [getEntry_setEntry_self] at hw
    cases hw
    rcases List.mem_append.mp ht with hmem | hmem
    · simp only [pruneWindow] at hmem
      exact of_decide_eq_true (List.mem_filter.mp hmem).2
    · have : t = now := by simpa using hmem
      subst this
      norm_num

theorem rate_window_fresh_after_check_witness : (10 : ℚ) - 5 < 60 :=
  rate_window_fresh_after_check 1 [(("k2"), recActive)]
    [GatewayOp.validateOp ("k2") 5] ("k2") 10 recActive6 [(5 : ℚ)] 5
    rfl rfl
    (by norm_num [applyOp, validate_key, getEntry, setEntry, pruneWindow,
      recActive, recActive6])
    (by norm_num)

theorem validate_key_single_admission_witness :
    ((recActive.active = false → validate_key 60 sActive ("k2") 10 = ⟨none, sActive, false⟩) ∧
    (∀ e', (validate_key 60 sActive ("k2") 10).result = some e' →
      e'.usage_count = recActive.usage_count + 1 ∧
      (validate_key 60 sActive ("k2") 10).saved = true ∧
      getEntry (validate_key 60 sActive ("k2") 10).state.keys ("k2") = some e' ∧
      getEntry (validate_key 60 sActive ("k2") 10).state.rate_tracker ("k2") =
        some (pruneWindow 10 ((getEntry sActive.rate_tracker ("k2")).getD []) ++ [10]))) ∧
    ((recInactive.active = false →
        validate_key 60 sInactive ("k1") 0 = ⟨none, sInactive, false⟩) ∧
    (∀ e', (validate_key 60 sInactive ("k1") 0).result = some e' →
      e'.usage_count = recInactive.usage_count + 1 ∧
      (validate_key 60 sInactive ("k1") 0).saved = true ∧
      getEntry (validate_key 60 sInactive ("k1") 0).state.keys ("k1") = some e' ∧
      getEntry (validate_key 60 sInactive ("k1") 0).state.rate_tracker ("k1") =
        some (pruneWindow 0 ((getEntry sInactive.rate_tracker ("k1")).getD []) ++ [0]))) :=
  ⟨validate_key_single_admission 60 sActive ("k2") 10 recActive rfl,
   validate_key_single_admission 60 sInactive ("k1") 0 recInactive rfl⟩

/-- One WebSocket message: a discrete binary or text frame. -/
inductive Frame where
  | binary (payload : List Nat)
  | text (s : String)
deriving DecidableEq

/-- Whether a frame is a binary frame. -/
def Frame.isBinary : Frame → Bool
  | .binary _ => true
  | .text _ => false

/-- A frame written to a destination transport: `send`/`send_bytes` of a
binary payload versus `send_text` of a string. -/
inductive SentFrame where
  | sentBytes (payload : List Nat)
  | sentText (s : String)
deriving DecidableEq

/-- Whether a sent frame was sent as binary. -/
def SentFrame.isBinary : SentFrame → Bool
  | .sentBytes _ => true
  | .sentText _ => false

/-- Verbatim kind-preserving forwarding of one frame: the
`isinstance(message, bytes)` dispatch in `backend_to_client`. -/
def forwardFrame : Frame → SentFrame
  | .binary p => .sentBytes p
  | .text s => .sentText s

/-- The frames the `client_to_backend` pump sends to the backend when the
client transport yields `msgs` before disconnecting.  The loop awaits
`websocket.receive_bytes()` — which raises when the arriving frame is a text
frame — and forwards the payload with `backend_ws.send(data)`; the exception
is caught by the pump's `except Exception` handler, ending the direction and
dropping the offending frame and everything after it. -/
def client_to_backend : List Frame → List SentFrame
  | [] => []
  | .binary p :: rest => .sentBytes p :: client_to_backend rest
  | .text _ :: _ => []

/-- The frames the `backend_to_client` pump sends to the client when the
backend yields `msgs` before closing: each message is forwarded verbatim,
bytes via `send_bytes` and text via `send_text`. -/
def backend_to_client : List Frame → List SentFrame
  | [] => []
  | m :: rest => forwardFrame m :: backend_to_client rest

theorem backend_to_client_map (msgs : List Frame) :
    backend_to_client msgs = msgs.map forwardFrame := by
  induction msgs with
  | nil => rfl
  | cons m rest ih => simp [backend_to_client, ih]

theorem client_to_backend_all_binary (msgs : List Frame)
    (hb : ∀ f ∈ msgs, f.isBinary = true) :
    client_to_backend msgs = msgs.map forwardFrame := by
  induction msgs with
  | nil => rfl
  | cons m rest ih =>
    cases m with
    | binary p =>
      simp [client_to_backend, forwardFrame,
        ih fun f hf => hb f (List.mem_cons_of_mem _ hf)]
    | text str =>
      have := hb (Frame.text str) (List.mem_cons_self ..)
      simp [Frame.isBinary] at this

/-- C5 counterexample: feeding K = 1 frame — a text frame — into the
client→backend direction forwards 0 frames, not 1: `receive_bytes` faults on
a text frame instead of forwarding it as text. -/
theorem relay_text_frame_dropped_cex :
    client_to_backend [Frame.text ("hi")] = [] ∧
    ([Frame.text ("hi")] : List Frame).length = 1 := by
  exact ⟨rfl, rfl⟩

/-- C5 amended: the backend→client direction forwards every sequence of K
frames as exactly K frames, in order, each with the kind it arrived with;
the client→backend direction does the same only when every fed frame is
binary — a text frame from the client faults that direction instead of being
forwarded as text. -/
theorem relay_forwarding (msgs : List Frame) :
    backend_to_client msgs = msgs.map forwardFrame ∧
    (backend_to_client msgs).length = msgs.length ∧
    (∀ f, (forwardFrame f).isBinary = f.isBinary) ∧
    ((∀ f ∈ msgs, f.isBinary = true) →
      client_to_backend msgs = msgs.map forwardFrame ∧
      (client_to_backend msgs).length = msgs.length) := by
  refine ⟨backend_to_client_map msgs, ?_, ?_, ?_⟩
  · simp [backend_to_client_map msgs]
  · intro f
    cases f <;> rfl
  · intro hb
    refine ⟨client_to_backend_all_binary msgs hb, ?_⟩
    simp [client_to_backend_all_binary msgs hb]

/-- Outcome of the `/ws/stream` admission gate. -/
inductive WsAdmit where
  | accepted (meta : KeyRecord) (state : GatewayState)
  | closed (code : Nat) (reason : String)
deriving DecidableEq

/-- The one reason string every WebSocket denial carries
(`await websocket.close(code=4001, reason=...)`). -/
def wsDenialText : String := "Invalid or rate-limited API key"

/-- The admission gate of `websocket_stream`: validate the `api_key` query
parameter (digest passed in) and either proceed into the session with the
returned metadata or close the socket with code 4001 and the fixed reason
string. -/
def websocket_stream (n : Nat) (s : GatewayState) (api_key_hash : String) (now : ℚ) :
    WsAdmit :=
  match (validate_key n s api_key_hash now).result with
  | some meta => .accepted meta (validate_key n s api_key_hash now).state
  | none => .closed 4001 wsDenialText

/-- A state whose one record is active but whose window is at capacity 1. -/
def sRateLimited : GatewayState :=
  { keys := [(("k3"), recActive)], rate_tracker := [(("k3"), [(9 : ℚ)])] }

/-- C6 counterexample: the three denial causes — digest absent, record
revoked, window at capacity — all close the socket with the same code 4001
and the same reason string, so the caller cannot distinguish them. -/
theorem ws_denial_indistinguishable_cex :
    websocket_stream 1 ⟨[], []⟩ ("kx") 10 = WsAdmit.closed 4001 wsDenialText ∧
    websocket_stream 1 sInactive ("k1") 10 = WsAdmit.closed 4001 wsDenialText ∧
    websocket_stream 1 sRateLimited ("k3") 10 = WsAdmit.closed 4001 wsDenialText := by
  refine ⟨rfl, rfl, ?_⟩
  have hden : (validate_key 1 sRateLimited ("k3") 10).result = none := by
    norm_num [validate_key, getEntry, pruneWindow, sRateLimited, recActive]
  simp [websocket_stream, hden]

/-- C6 amended: every denied streaming admission — whatever its cause —
closes the connection with the single close code 4001 and the fixed reason
string; the three causes are not distinguished to the caller. -/
theorem ws_denial_uniform (n : Nat) (s : GatewayState) (api_key_hash : String) (now : ℚ)
    (hden : (validate_key n s api_key_hash now).result = none) :
    websocket_stream n s api_key_hash now = WsAdmit.closed 4001 wsDenialText := by
  simp [websocket_stream, hden]

theorem ws_denial_uniform_witness :
    websocket_stream 1 sInactive ("k1") 10 = WsAdmit.closed 4001 wsDenialText :=
  ws_denial_uniform 1 sInactive ("k1") 10 rfl

/-- The behaviour of one spawned `python -m moshi.offline` run: wall-clock
running time in seconds, exit status, whether the expected output artifact
exists when it finishes, and the captured stderr/stdout text. -/
structure JobWorld where
  duration : ℚ
  exitCode : Int
  producesOutput : Bool
  stderrText : String
  stdoutText : String
deriving DecidableEq

/-- One observable step of an `offline_inference` request. -/
inductive JobEvent where
  | writeInput
  | spawnProcess
  | killProcess
  | removeInput
  | removeOutput
  | respondFile
  | respondError (status : Nat) (detail : String)
deriving DecidableEq

/-- `stderr.decode()[:500]` / `stdout.decode()[:500]`. -/
def truncate500 (s : String) : String := s.take 500

/-- Detail string of the HTTP 504 raised on `asyncio.TimeoutError`. -/
def timeoutDetail : String := "Inference timed out"

/-- Detail string of the HTTP 500 raised when the output file is missing. -/
def noOutputDetail : String := "No output generated"

/-- Text preceding the truncated stderr in the nonzero-exit HTTP 500. -/
def inferenceFailedText : String := "Inference failed: "

/-- The `offline_inference` handler as the ordered trace of its observable
effects, given the spawned command's behaviour.  The handler writes the
uploaded input, spawns the command, and waits with
`asyncio.wait_for(process.communicate(), timeout=300)`.  When the deadline
passes, `wait_for` cancels only the `communicate()` wait and raises
`asyncio.TimeoutError`; the handler converts it to HTTP 504 — no
`kill()`/`terminate()` call appears anywhere in the handler, so no
`killProcess` event can ever be emitted.  Nonzero exit raises HTTP 500 with
a 500-character stderr excerpt; a zero exit without the expected output file
raises HTTP 500; otherwise the output file is returned.  The `finally`
block removes the input file on every one of these paths before the
response leaves the handler, and no path removes the output file. -/
def offline_inference (w : JobWorld) : List JobEvent :=
  if 300 < w.duration then
    [.writeInput, .spawnProcess, .removeInput, .respondError 504 timeoutDetail]
  else if w.exitCode ≠ 0 then
    [.writeInput, .spawnProcess, .removeInput,
      .respondError 500 (inferenceFailedText ++ truncate500 w.stderrText)]
  else if w.producesOutput = false then
    [.writeInput, .spawnProcess, .removeInput, .respondError 500 noOutputDetail]
  else
    [.writeInput, .spawnProcess, .removeInput, .respondFile]

/-- A run that exceeds the 300-second deadline. -/
def timeoutWorld : JobWorld :=
  { duration := 301, exitCode := 0, producesOutput := false,
    stderrText := "", stdoutText := "" }

/-- A successful run: finishes in time, exits zero, output file present. -/
def successWorld : JobWorld :=
  { duration := 5, exitCode := 0, producesOutput := true,
    stderrText := "", stdoutText := "ok" }

/-- A run that exits zero in time but leaves no output artifact. -/
def missingOutputWorld : JobWorld :=
  { duration := 5, exitCode := 0, producesOutput := false,
    stderrText := "", stdoutText := "" }

/-- C3: at a run lasting 301 seconds, the handler reports the timeout fault
(HTTP 504) and removes the input artifact — but its trace contains no
`killProcess` event: the `asyncio.wait_for` timeout cancels only the
`communicate()` wait, and the spawned process is never forcibly
terminated. -/
theorem timeout_not_terminated :
    offline_inference timeoutWorld =
      [JobEvent.writeInput, JobEvent.spawnProcess, JobEvent.removeInput,
        JobEvent.respondError 504 timeoutDetail] ∧
    JobEvent.killProcess ∉ offline_inference timeoutWorld := by
  constructor
  · rfl
  · decide

/-- C4 counterexample: on a successful run the handler's trace contains no
`removeOutput` event at all — the output artifact is not removed after
transmission; the code leaves output-file cleanup to external mechanisms. -/
theorem output_not_removed_cex :
    offline_inference successWorld =
      [JobEvent.writeInput, JobEvent.spawnProcess, JobEvent.removeInput,
        JobEvent.respondFile] ∧
    JobEvent.removeOutput ∉ offline_inference successWorld := by
  constructor
  · rfl
  · decide

/-- C4 amended: on every exit path (success, nonzero exit, missing output,
timeout) the input artifact is removed before the single response event that
ends the handler; the output artifact is removed on no path — the handler
never deletes it. -/
theorem cleanup_frame (w : JobWorld) :
    JobEvent.removeInput ∈ offline_inference w ∧
    JobEvent.removeOutput ∉ offline_inference w ∧
    (∃ r, offline_inference w =
      [JobEvent.writeInput, JobEvent.spawnProcess, JobEvent.removeInput, r] ∧
      (r = JobEvent.respondFile ∨ ∃ st d, r = JobEvent.respondError st d)) := by
  unfold offline_inference
  split_ifs with h1 h2 h3
  · exact ⟨by simp, by simp, _, rfl, Or.inr ⟨504, _, rfl⟩⟩
  · exact ⟨by simp, by simp, _, rfl, Or.inr ⟨500, _, rfl⟩⟩
  · exact ⟨by simp, by simp, _, rfl, Or.inr ⟨500, _, rfl⟩⟩
  · exact ⟨by simp, by simp, _, rfl, Or.inl rfl⟩

/-- C8: a run that finishes within the deadline, exits zero, and leaves no
output artifact is reported as a fault — HTTP 500 with detail
"No output generated" — and its trace contains no success response. -/
theorem zero_exit_missing_output_fault (w : JobWorld)
    (hd : w.duration ≤ 300) (hz : w.exitCode = 0) (ho : w.producesOutput = false) :
    offline_inference w =
      [JobEvent.writeInput, JobEvent.spawnProcess, JobEvent.removeInput,
        JobEvent.respondError 500 noOutputDetail] ∧
    JobEvent.respondFile ∉ offline_inference w := by
  have h1 : ¬ 300 < w.duration := not_lt.mpr hd
  constructor
  · simp [offline_inference, h1, hz, ho]
  · simp [offline_inference, h1, hz, ho]

theorem zero_exit_missing_output_fault_witness :
    offline_inference missingOutputWorld =
      [JobEvent.writeInput, JobEvent.spawnProcess, JobEvent.removeInput,
        JobEvent.respondError 500 noOutputDetail] ∧
    JobEvent.respondFile ∉ offline_inference missingOutputWorld :=
  zero_exit_missing_output_fault missingOutputWorld (by norm_num [missingOutputWorld])
    rfl rfl
